import Mathlib

/-!
Shallow embedding of the change-scanning and prompt-construction pipeline of
the `gitcommenter` Go package (`gitcommenter.go`) and the approval logic of
`cmd/ai-git-auto/main.go`.  Go strings are modelled as Lean `String` values
and the Go standard-library string operations used by the code are modelled
explicitly on the character sequence (`String.data`), so that every
definition is executable and amenable to structural reasoning.
-/

namespace GitCommenter

/-- Model of Go `strings.HasPrefix s pre`. -/
def goStartsWith (s pre : String) : Bool :=
  pre.data.isPrefixOf s.data

/-- Model of Go `strings.Contains s sub`. -/
def goContains (s sub : String) : Bool :=
  decide (sub.data <:+: s.data)

/-- Model of Go `strings.TrimSpace`: drop leading and trailing whitespace. -/
def goTrim (s : String) : String :=
  ⟨((s.data.dropWhile Char.isWhitespace).reverse.dropWhile Char.isWhitespace).reverse⟩

/-- Model of Go `strings.ToLower` (character-wise lowering). -/
def goLower (s : String) : String :=
  ⟨s.data.map Char.toLower⟩

/-- Helper for `goSplitLines`: accumulates the current chunk (reversed). -/
def splitLinesAux : List Char → List Char → List String
  | [], acc => [⟨acc.reverse⟩]
  | c :: cs, acc =>
    if c = '\n' then ⟨acc.reverse⟩ :: splitLinesAux cs []
    else splitLinesAux cs (c :: acc)

/-- Model of Go `strings.Split s "\n"`: split on newlines, keeping empty chunks
(`strings.Split "" "\n"` is `[""]`, as in Go). -/
def goSplitLines (s : String) : List String :=
  splitLinesAux s.data []

/-- Helper for `goFields`: accumulates the current field (reversed). -/
def fieldsAux : List Char → List Char → List String
  | [], acc => if acc = [] then [] else [⟨acc.reverse⟩]
  | c :: cs, acc =>
    if c.isWhitespace then
      (if acc = [] then fieldsAux cs [] else ⟨acc.reverse⟩ :: fieldsAux cs [])
    else fieldsAux cs (c :: acc)

/-- Model of Go `strings.Fields`: split around runs of whitespace, returning
only the non-empty fields. -/
def goFields (s : String) : List String :=
  fieldsAux s.data []

/-- Model of Go `strings.Join` with a separator. -/
def goJoin (sep : String) : List String → String
  | [] => ""
  | [s] => s
  | s :: rest => s ++ sep ++ goJoin sep rest

/-- Go struct `FileChange` (`gitcommenter.go`): one staged file with its diff
and line counts. -/
structure FileChange where
  FilePath : String
  ChangeType : String
  Diff : String
  LinesAdded : Nat
  LinesRemoved : Nat
deriving DecidableEq

/-- Go struct `CommitSuggestion` (`gitcommenter.go`).  The Go `float64`
confidence field only ever holds the literal constant `0.8`, modelled
exactly as the rational `0.8`. -/
structure CommitSuggestion where
  Subject : String
  Body : String
  Confidence : ℚ
  FilesAffected : List String
deriving DecidableEq

/-- Go `countDiffLines` (`gitcommenter.go` lines 203-213): scan the lines of a
diff, counting `+`-lines that are not `+++` headers and `-`-lines that are not
`---` headers. -/
def countDiffLines (diff : String) : Nat × Nat :=
  (goSplitLines diff).foldl
    (fun acc line =>
      if goStartsWith line "+" && !goStartsWith line "+++" then (acc.1 + 1, acc.2)
      else if goStartsWith line "-" && !goStartsWith line "---" then (acc.1, acc.2 + 1)
      else acc)
    (0, 0)

/-- A line counted as added by the diff scan. -/
def isAddedLine (line : String) : Bool :=
  goStartsWith line "+" && !goStartsWith line "+++"

/-- A line counted as removed by the diff scan. -/
def isRemovedLine (line : String) : Bool :=
  goStartsWith line "-" && !goStartsWith line "---"

/-- Go `parseChangeType` (`gitcommenter.go` lines 170-185): `switch status[0]`.
Indexing `status[0]` on the empty string is out of bounds in Go (a runtime
panic), modelled as `none`. -/
def parseChangeType (status : String) : Option String :=
  match status.data with
  | [] => none
  | c :: _ =>
    some (if c = 'A' then "added"
      else if c = 'M' then "modified"
      else if c = 'D' then "deleted"
      else if c = 'R' then "renamed"
      else if c = 'C' then "copied"
      else "modified")

/-- The specification's fixed classification mapping, written from the spec's
words ("`A`→added, `M`→modified, `D`→deleted, `R`→renamed, `C`→copied,
anything else→modified"), for comparison with `parseChangeType`. -/
def specChangeType (c : Char) : String :=
  if c = 'A' then "added"
  else if c = 'M' then "modified"
  else if c = 'D' then "deleted"
  else if c = 'R' then "renamed"
  else if c = 'C' then "copied"
  else "modified"

/-- The extension computation of `buildChangeContext` (`gitcommenter.go` lines
245-248): Go `strings.LastIndex(path, ".")` followed by `path[dotIndex:]`, or
the empty string when the path has no dot. -/
def extOf (path : String) : String :=
  if path.data.contains '.' then ⟨'.' :: (path.data.reverse.takeWhile (· ≠ '.')).reverse⟩
  else ""

/-- The file-type annotation switch of `buildChangeContext` (`gitcommenter.go`
lines 254-275). -/
def fileTypeLine (path ext : String) : String :=
  if ext = ".go" then "   File Type: Go source code\n"
  else if ext = ".js" ∨ ext = ".ts" then "   File Type: JavaScript/TypeScript\n"
  else if ext = ".py" then "   File Type: Python script\n"
  else if ext = ".md" then "   File Type: Markdown documentation\n"
  else if ext = ".json" then "   File Type: JSON configuration\n"
  else if ext = ".yml" ∨ ext = ".yaml" then "   File Type: YAML configuration\n"
  else if ext = "" then
    (if goContains path "Makefile" then "   File Type: Build script\n"
     else "   File Type: Binary or script file\n")
  else "   File Type: " ++ ext ++ " file\n"

/-- The count the Go map `changeTypes` holds for a given change-type key after
the accumulation loop of `buildChangeContext` (`gitcommenter.go` lines
223-230). -/
def typeCount (changes : List FileChange) (t : String) : Nat :=
  changes.countP (fun c => c.ChangeType == t)

/-- The `typesSummary` entries of `buildChangeContext` (`gitcommenter.go` lines
235-238), for one particular enumeration order of the `changeTypes` map keys.
Go leaves the `range` order over a map unspecified (and the runtime randomizes
it), so the order is an explicit parameter of the model. -/
def typesSummary (typeOrder : List String) (changes : List FileChange) : List String :=
  typeOrder.map (fun t => toString (typeCount changes t) ++ " " ++ t)

/-- Predicate stating that `typeOrder` is a possible enumeration order of the keys of the Go map
`changeTypes`: each key exactly once, keys are exactly the change types
occurring in `changes`. -/
def validTypeOrder (typeOrder : List String) (changes : List FileChange) : Prop :=
  typeOrder.Nodup ∧ (∀ t ∈ typeOrder, t ∈ changes.map FileChange.ChangeType) ∧
    (∀ c ∈ changes, c.ChangeType ∈ typeOrder)

instance (typeOrder : List String) (changes : List FileChange) :
    Decidable (validTypeOrder typeOrder changes) := by
  unfold validTypeOrder; infer_instance

/-- The `totalAdded` accumulator of `buildChangeContext` (`gitcommenter.go`
lines 224-230). -/
def totalAdded (changes : List FileChange) : Nat :=
  changes.foldl (fun acc c => acc + c.LinesAdded) 0

/-- The `totalRemoved` accumulator of `buildChangeContext` (`gitcommenter.go`
lines 224-230). -/
def totalRemoved (changes : List FileChange) : Nat :=
  changes.foldl (fun acc c => acc + c.LinesRemoved) 0

/-- The per-file breakdown loop of `buildChangeContext` (`gitcommenter.go`
lines 243-277), with `i` the running Go loop index. -/
def fileBreakdown : Nat → List FileChange → String
  | _, [] => ""
  | i, c :: rest =>
    toString (i + 1) ++ ". " ++ c.FilePath ++ " (" ++ c.ChangeType ++ extOf c.FilePath ++
      "):\n" ++
    "   Lines changed: +" ++ toString c.LinesAdded ++ " -" ++ toString c.LinesRemoved ++ "\n" ++
    fileTypeLine c.FilePath (extOf c.FilePath) ++ "\n" ++
    fileBreakdown (i + 1) rest

/-- Go `buildChangeContext` (`gitcommenter.go` lines 216-280), parameterized by
the enumeration order `typeOrder` the Go runtime chooses for the `changeTypes`
map `range` (any `validTypeOrder` is a possible execution). -/
def buildChangeContext (typeOrder : List String) (changes : List FileChange) : String :=
  "REPOSITORY CHANGE SUMMARY:\n" ++
  "Total Files Changed: " ++ toString changes.length ++ "\n" ++
  "Total Lines: +" ++ toString (totalAdded changes) ++ " -" ++
    toString (totalRemoved changes) ++ "\n" ++
  "Change Types: " ++ goJoin ", " (typesSummary typeOrder changes) ++ "\n\n" ++
  "DETAILED FILE BREAKDOWN:\n" ++ fileBreakdown 0 changes

/-- The fixed truncation marker appended by `buildPrompt` when a diff exceeds
the 2000-character cap (`gitcommenter.go` line 305). -/
def truncMarker : String :=
  "\n... (truncated - showing first 2000 characters)"

/-- The `strings.Repeat("=", 50)` separator of `buildPrompt`. -/
def eqBar : String :=
  ⟨List.replicate 50 '='⟩

/-- The diff-capping step of `buildPrompt` (`gitcommenter.go` lines 303-306):
`if len(diff) > 2000 { diff = diff[:2000] + marker }`. -/
def truncateDiff (diff : String) : String :=
  if diff.data.length > 2000 then ⟨diff.data.take 2000⟩ ++ truncMarker
  else diff

/-- The per-file block of the `buildPrompt` loop body (`gitcommenter.go` lines
297-314), for one file that is actually detailed. -/
def fileDetail (c : FileChange) : String :=
  if c.Diff ≠ "" then
    "=== DETAILED CHANGES IN " ++ c.FilePath ++ " ===\n" ++
    "Change Type: " ++ c.ChangeType ++ "\n" ++
    "Lines Added: " ++ toString c.LinesAdded ++ ", Lines Removed: " ++
      toString c.LinesRemoved ++ "\n\n" ++
    "DIFF CONTENT:\n" ++ truncateDiff c.Diff ++ "\n" ++ eqBar ++ "\n\n"
  else
    "=== " ++ c.FilePath ++ " ===\n" ++
    "Change Type: " ++ c.ChangeType ++ " (binary file or no diff available)\n\n"

/-- The `buildPrompt` loop (`gitcommenter.go` lines 292-315): details files
while the index `i` is below 5, and on reaching index 5 emits the
`... and N more files` summary (with `N = total - 5`) and breaks. -/
def fileSection (total : Nat) : Nat → List FileChange → String
  | _, [] => ""
  | i, c :: rest =>
    if 5 ≤ i then "... and " ++ toString (total - 5) ++ " more files\n\n"
    else fileDetail c ++ fileSection total (i + 1) rest

/-- The fixed prologue of `buildPrompt` (`gitcommenter.go` lines 286-287). -/
def promptHeader : String :=
  "You are an expert developer assistant that generates detailed, meaningful Git commit messages based on actual code changes.\n\n" ++
  "Analyze the following file changes and diffs carefully:\n\n"

/-- The fixed instructional suffix of `buildPrompt` (`gitcommenter.go` lines
317-343). -/
def promptInstructions : String :=
  "Based on the above changes, generate a commit message that:\n" ++
  "1. Uses conventional commit format (feat/fix/docs/style/refactor/test/chore)\n" ++
  "2. Has a clear, descriptive subject line (50 characters or less)\n" ++
  "3. SPECIFICALLY mentions what functionality was added/changed/fixed\n" ++
  "4. Uses present tense, imperative mood (e.g., \x27add\x27, \x27fix\x27, \x27update\x27)\n" ++
  "5. Includes a body with more details if the changes are significant\n\n" ++
  "IMPORTANT GUIDELINES:\n" ++
  "- Be SPECIFIC about what changed (don\x27t just say \x27add functionality\x27)\n" ++
  "- Mention key functions, features, or components that were modified\n" ++
  "- If it\x27s a new file, mention what it contains or does\n" ++
  "- If it\x27s a modification, mention what was improved/changed\n" ++
  "- Focus on the \x27what\x27 and \x27why\x27 of the changes\n\n" ++
  "Examples of GOOD commit messages:\n" ++
  "- \x27feat: add interactive model selection with recommendations\x27\n" ++
  "- \x27fix: correct model validation in prerequisites check\x27\n" ++
  "- \x27refactor: enhance logging with detailed progress indicators\x27\n" ++
  "- \x27feat: implement git push with remote repository detection\x27\n\n" ++
  "Examples of BAD commit messages (avoid these):\n" ++
  "- \x27add functionality\x27\n" ++
  "- \x27update files\x27\n" ++
  "- \x27fix bugs\x27\n" ++
  "- \x27initial commit\x27\n\n" ++
  "Respond with only the commit message (subject and optional body), no additional text or formatting."

/-- Go `buildPrompt` (`gitcommenter.go` lines 283-346). -/
def buildPrompt (context : String) (changes : List FileChange) : String :=
  promptHeader ++ context ++ "\n" ++
  fileSection changes.length 0 changes ++
  promptInstructions

/-- The body-line splice loop of `parseCommitSuggestion` (`gitcommenter.go`
lines 417-423): the first suffix starting with a non-blank line, or `none`
when every line is blank (in which case the Go loop leaves `bodyLines`
unchanged). -/
def firstNonBlankSuffix : List String → Option (List String)
  | [] => none
  | l :: ls => if goTrim l == "" then firstNonBlankSuffix ls else some (l :: ls)

/-- The effect of the `bodyLines` loop of `parseCommitSuggestion`: splice to
the first non-blank line if one exists, otherwise keep the list unchanged. -/
def stripLeadingBlanks (ls : List String) : List String :=
  (firstNonBlankSuffix ls).getD ls

/-- Go `parseCommitSuggestion` (`gitcommenter.go` lines 405-437). -/
def parseCommitSuggestion (response : String) (changes : List FileChange) :
    CommitSuggestion :=
  let lines := goSplitLines response
  let subject := if 0 < lines.length then goTrim (lines.headD "") else ""
  let body := if 1 < lines.length then goJoin "\n" (stripLeadingBlanks (lines.drop 1)) else ""
  { Subject := subject
    Body := goTrim body
    Confidence := 0.8
    FilesAffected := changes.map FileChange.FilePath }

/-- Parse as described by the specification's words (§4.4): subject is the
trimmed first line (empty if no lines), body is the remaining lines with the
leading blank lines dropped, rejoined with line breaks and trimmed, the
affected files are the ChangeSet's paths in order, and confidence is the
constant `0.8`.  For comparison with `parseCommitSuggestion`. -/
def specParse (response : String) (changes : List FileChange) : CommitSuggestion :=
  let lines := goSplitLines response
  { Subject := goTrim (lines.headD "")
    Body := goTrim (goJoin "\n" ((lines.drop 1).dropWhile (fun l => goTrim l == "")))
    Confidence := 0.8
    FilesAffected := changes.map FileChange.FilePath }

/-- The per-line loop of `ScanStagedChanges` (`gitcommenter.go` lines 101-133),
with the per-file diff query (`getFileDiff`) abstracted as an oracle `getDiff`
returning `(diff, linesAdded, linesRemoved)` or `none` on failure (in which
case the file is skipped with a warning).  The Go `status[0]` panic inside
`parseChangeType` is modelled as an overall `none`. -/
def scanLoop (getDiff : String → Option (String × Nat × Nat)) :
    List String → List FileChange → Option (List FileChange)
  | [], acc => some acc
  | line :: rest, acc =>
    if line = "" then scanLoop getDiff rest acc
    else
      let parts := goFields line
      if parts.length < 2 then scanLoop getDiff rest acc
      else
        match parseChangeType (parts.headD "") with
        | none => none
        | some ct =>
          match getDiff (parts.getD 1 "") with
          | none => scanLoop getDiff rest acc
          | some (d, la, lr) =>
            scanLoop getDiff rest
              (acc ++ [{ FilePath := parts.getD 1 "", ChangeType := ct, Diff := d,
                         LinesAdded := la, LinesRemoved := lr }])

/-- The pure core of Go `ScanStagedChanges` (`gitcommenter.go` lines 82-136):
parse the `git diff --cached --name-status` output (already successfully
obtained) into the list of `FileChange`s. -/
def scanStagedParse (getDiff : String → Option (String × Nat × Nat))
    (output : String) : Option (List FileChange) :=
  let lines := goSplitLines (goTrim output)
  if lines.length = 1 ∧ lines.headD "" = "" then some []
  else scanLoop getDiff lines []

/-- Go `askForApproval` (`cmd/ai-git-auto/main.go` lines 377-385), as a
function of the line read from standard input. -/
def askForApproval (input : String) : Bool :=
  let response := goLower (goTrim input)
  response == "" || response == "y" || response == "yes"

/-- The commit-approval decision of `main` (`cmd/ai-git-auto/main.go`):
`commitApproved := !*interactive || *force || askForApproval(...)`. -/
def commitApproved (interactive force : Bool) (input : String) : Bool :=
  !interactive || force || askForApproval input

/-- Go `GenerateCommitMessage` (`gitcommenter.go` lines 139-159), with the
HTTP call to the inference backend (`callOllama`) abstracted as the oracle
`call`, and the `changeTypes` map enumeration order of `buildChangeContext`
as `typeOrder`. -/
def generateCommitMessage (typeOrder : List String)
    (call : String → Except String String) (changes : List FileChange) :
    Except String CommitSuggestion :=
  if changes.length = 0 then Except.error "no changes to analyze"
  else
    let context := buildChangeContext typeOrder changes
    let prompt := buildPrompt context changes
    match call prompt with
    | Except.error e => Except.error ("failed to generate commit message: " ++ e)
    | Except.ok response => Except.ok (parseCommitSuggestion response changes)

/-! ### Helper lemmas -/

lemma data_of_plus : "+".data = ['+'] := rfl

lemma data_of_plus3 : "+++".data = ['+', '+', '+'] := rfl

lemma data_of_minus : "-".data = ['-'] := rfl

lemma data_of_minus3 : "---".data = ['-', '-', '-'] := rfl

lemma not_added_and_removed (l : String) :
    ¬(isAddedLine l = true ∧ isRemovedLine l = true) := by
  rintro ⟨ha, hr⟩
  obtain ⟨d⟩ := l
  cases d with
  | nil =>
    simp [isAddedLine, goStartsWith, data_of_plus, List.isPrefixOf] at ha
  | cons c cs =>
    simp [isAddedLine, goStartsWith, data_of_plus, List.isPrefixOf] at ha
    simp [isRemovedLine, goStartsWith, data_of_minus, List.isPrefixOf] at hr
    exact absurd (hr.1.trans ha.1.symm) (by decide)

lemma countDiffLines_foldl (ls : List String) (a r : Nat) :
    ls.foldl
      (fun acc line =>
        if goStartsWith line "+" && !goStartsWith line "+++" then (acc.1 + 1, acc.2)
        else if goStartsWith line "-" && !goStartsWith line "---" then (acc.1, acc.2 + 1)
        else acc)
      (a, r) = (a + ls.countP isAddedLine, r + ls.countP isRemovedLine) := by
  induction ls generalizing a r with
  | nil => simp
  | cons l ls ih =>
    have hstep : (if goStartsWith l "+" && !goStartsWith l "+++" then ((a, r).1 + 1, (a, r).2)
        else if goStartsWith l "-" && !goStartsWith l "---" then ((a, r).1, (a, r).2 + 1)
        else (a, r)) =
        (if isAddedLine l then (a + 1, r) else if isRemovedLine l then (a, r + 1) else (a, r)) := by
      simp [isAddedLine, isRemovedLine]
    rw [List.foldl_cons, hstep]
    by_cases hA : isAddedLine l = true
    · have hR : isRemovedLine l = false := by
        cases hR : isRemovedLine l
        · rfl
        · exact absurd ⟨hA, hR⟩ (not_added_and_removed l)
      rw [if_pos hA, ih]
      have h1 : (l :: ls).countP isAddedLine = ls.countP isAddedLine + 1 := by
        simp [List.countP_cons, hA]
      have h2 : (l :: ls).countP isRemovedLine = ls.countP isRemovedLine := by
        simp [List.countP_cons, hR]
      rw [h1, h2]
      simp only [Prod.mk.injEq]
      exact ⟨by omega, by trivial⟩
    · rw [Bool.not_eq_true] at hA
      by_cases hR : isRemovedLine l = true
      · rw [if_neg (by simp [hA]), if_pos hR, ih]
        have h1 : (l :: ls).countP isAddedLine = ls.countP isAddedLine := by
          simp [List.countP_cons, hA]
        have h2 : (l :: ls).countP isRemovedLine = ls.countP isRemovedLine + 1 := by
          simp [List.countP_cons, hR]
        rw [h1, h2]
        simp only [Prod.mk.injEq]
        exact ⟨by trivial, by omega⟩
      · rw [Bool.not_eq_true] at hR
        rw [if_neg (by simp [hA]), if_neg (by simp [hR]), ih]
        have h1 : (l :: ls).countP isAddedLine = ls.countP isAddedLine := by
          simp [List.countP_cons, hA]
        have h2 : (l :: ls).countP isRemovedLine = ls.countP isRemovedLine := by
          simp [List.countP_cons, hR]
        rw [h1, h2]

/-! ### Claim theorems -/

/-- C3: for every diff text, `countDiffLines` returns the pair whose first
component counts the lines beginning with `+` but not `+++` and whose second
component counts the lines beginning with `-` but not `---`; as a pure
function of the text it is deterministic and idempotent (recomputation from
the same text yields the same pair). -/
theorem countDiffLines_spec :
    ∀ diff : String,
      countDiffLines diff =
        ((goSplitLines diff).countP isAddedLine, (goSplitLines diff).countP isRemovedLine) ∧
      countDiffLines diff = countDiffLines diff := by
  intro diff
  refine ⟨?_, rfl⟩
  unfold countDiffLines
  rw [countDiffLines_foldl]
  simp

/-- C4: `parseChangeType` classifies a status code by the fixed mapping
`A`→added, `M`→modified, `D`→deleted, `R`→renamed, `C`→copied, and any other
(first) code character yields `modified`, exactly as the specification's
mapping `specChangeType` prescribes. -/
theorem parseChangeType_mapping :
    parseChangeType "A" = some "added" ∧
    parseChangeType "M" = some "modified" ∧
    parseChangeType "D" = some "deleted" ∧
    parseChangeType "R" = some "renamed" ∧
    parseChangeType "C" = some "copied" ∧
    parseChangeType "X" = some "modified" ∧
    ∀ (c : Char) (rest : List Char), parseChangeType ⟨c :: rest⟩ = some (specChangeType c) :=
  ⟨rfl, rfl, rfl, rfl, rfl, rfl, fun _ _ => rfl⟩

/-- C8: `askForApproval` returns `true` exactly when the trimmed, lowercased
input is the empty string, `y` or `yes` (so an empty input approves), and the
commit-approval decision is auto-approved when running non-interactively or
with the force flag. -/
theorem askForApproval_default_yes :
    (∀ input, askForApproval input = true ↔
      (goLower (goTrim input) = "" ∨ goLower (goTrim input) = "y" ∨
        goLower (goTrim input) = "yes")) ∧
    askForApproval "" = true ∧
    (∀ f input, commitApproved false f input = true) ∧
    (∀ i input, commitApproved i true input = true) := by
  refine ⟨fun input => ?_, rfl, fun f input => rfl, fun i input => ?_⟩
  · simp [askForApproval, or_assoc]
  · simp [commitApproved]

/-- C10: `GenerateCommitMessage` on an empty change list returns the error
`no changes to analyze` without building a prompt or contacting the inference
backend: the result does not depend on the backend oracle at all. -/
theorem generateCommitMessage_empty_error :
    ∀ (typeOrder : List String) (call call₂ : String → Except String String),
      generateCommitMessage typeOrder call [] = Except.error "no changes to analyze" ∧
      generateCommitMessage typeOrder call [] = generateCommitMessage typeOrder call₂ [] :=
  fun _ _ _ => ⟨rfl, rfl⟩

/-- C7: when the staged-file status query succeeds with empty (or pure
whitespace) output, `ScanStagedChanges` returns the empty change list and no
error. -/
theorem scanStagedChanges_empty_output :
    ∀ (getDiff : String → Option (String × Nat × Nat)) (output : String),
      goTrim output = "" → scanStagedParse getDiff output = some [] := by
  intro getDiff output h
  unfold scanStagedParse
  rw [h]
  rfl

/-- Witness for C7 at the concrete empty output. -/
theorem scanStagedChanges_empty_output_witness :
    goTrim "" = "" ∧ scanStagedParse (fun _ => none) "" = some [] :=
  ⟨rfl, scanStagedChanges_empty_output (fun _ => none) "" rfl⟩

lemma splitLinesAux_ne_nil : ∀ (cs acc : List Char), splitLinesAux cs acc ≠ [] := by
  intro cs
  induction cs with
  | nil => intro acc h; simp [splitLinesAux] at h
  | cons c cs ih =>
    intro acc
    rw [splitLinesAux]
    by_cases hc : c = '\n'
    · rw [if_pos hc]; simp
    · rw [if_neg hc]; exact ih _

lemma goSplitLines_ne_nil (s : String) : goSplitLines s ≠ [] :=
  splitLinesAux_ne_nil s.data []

lemma goTrim_eq_empty_iff (s : String) :
    goTrim s = "" ↔ ∀ c ∈ s.data, c.isWhitespace = true := by
  obtain ⟨d⟩ := s
  have hd : (goTrim ⟨d⟩ = "") ↔
      ((d.dropWhile Char.isWhitespace).reverse.dropWhile Char.isWhitespace).reverse = [] :=
    ⟨fun h => congrArg String.data h, fun h => congrArg String.mk h⟩
  rw [hd, List.reverse_eq_nil_iff, List.dropWhile_eq_nil_iff]
  constructor
  · intro h' c hc
    rw [← List.takeWhile_append_dropWhile Char.isWhitespace d] at hc
    rcases List.mem_append.mp hc with h1 | h1
    · exact List.mem_takeWhile_imp h1
    · exact h' c (List.mem_reverse.mpr h1)
  · intro h c hc
    exact h c ((List.dropWhile_sublist Char.isWhitespace).subset (List.mem_reverse.mp hc))

lemma goJoin_blank : ∀ ls : List String, (∀ l ∈ ls, goTrim l = "") →
    ∀ c ∈ (goJoin "\n" ls).data, c.isWhitespace = true := by
  intro ls
  induction ls with
  | nil => intro _ c hc; simp [goJoin] at hc
  | cons s t ih =>
    intro h c hc
    cases t with
    | nil =>
      rw [show goJoin "\n" [s] = s from rfl] at hc
      exact (goTrim_eq_empty_iff s).mp (h s (by simp)) c hc
    | cons t' r =>
      rw [show goJoin "\n" (s :: t' :: r) = s ++ "\n" ++ goJoin "\n" (t' :: r) from rfl,
        String.data_append, String.data_append] at hc
      rcases List.mem_append.mp hc with h1 | h1
      · rcases List.mem_append.mp h1 with h2 | h2
        · exact (goTrim_eq_empty_iff s).mp (h s (by simp)) c h2
        · have : c = '\n' := by simpa using h2
          subst this; rfl
      · exact ih (fun l hl => h l (by simp [hl])) c h1

lemma firstNonBlankSuffix_some : ∀ (ls r : List String), firstNonBlankSuffix ls = some r →
    r = ls.dropWhile (fun l => goTrim l == "") := by
  intro ls
  induction ls with
  | nil => intro r h; simp [firstNonBlankSuffix] at h
  | cons s t ih =>
    intro r h
    rw [firstNonBlankSuffix] at h
    by_cases hs : (goTrim s == "") = true
    · rw [if_pos hs] at h
      rw [List.dropWhile_cons, if_pos hs]
      exact ih r h
    · rw [if_neg hs] at h
      rw [List.dropWhile_cons, if_neg hs]
      exact (Option.some.injEq _ _ ▸ h).symm

lemma firstNonBlankSuffix_none : ∀ ls : List String, firstNonBlankSuffix ls = none →
    ∀ l ∈ ls, goTrim l = "" := by
  intro ls
  induction ls with
  | nil => intro _ l hl; simp at hl
  | cons s t ih =>
    intro h l hl
    rw [firstNonBlankSuffix] at h
    by_cases hs : (goTrim s == "") = true
    · rw [if_pos hs] at h
      rcases List.mem_cons.mp hl with h1 | h1
      · exact h1 ▸ beq_iff_eq.mp hs
      · exact ih h l h1
    · rw [if_neg hs] at h
      exact absurd h (by simp)

/-- A two-file ChangeSet used for concrete examples (the spec's §8 end-to-end
scenario). -/
def demoChanges : List FileChange :=
  [⟨"a.go", "modified", "d", 5, 2⟩, ⟨"b.txt", "added", "e", 10, 0⟩]

/-- C2: `parseCommitSuggestion` agrees with the specification's description
`specParse` on every raw response and every ChangeSet (subject is the trimmed
first line, body is the remaining lines with leading blank lines dropped and
rejoined and trimmed, the files are the ChangeSet's paths in order, and the
confidence is the constant `0.8`), including the spec's two concrete
examples. -/
theorem parseCommitSuggestion_spec :
    (∀ (response : String) (changes : List FileChange),
      parseCommitSuggestion response changes = specParse response changes) ∧
    parseCommitSuggestion "feat: add X\n\nDetails here." demoChanges =
      { Subject := "feat: add X", Body := "Details here.", Confidence := 0.8,
        FilesAffected := ["a.go", "b.txt"] } ∧
    parseCommitSuggestion "" demoChanges =
      { Subject := "", Body := "", Confidence := 0.8,
        FilesAffected := ["a.go", "b.txt"] } := by
  refine ⟨fun response changes => ?_, rfl, rfl⟩
  unfold parseCommitSuggestion specParse
  dsimp only
  have hpos : 0 < (goSplitLines response).length :=
    List.length_pos.mpr (goSplitLines_ne_nil response)
  rw [if_pos hpos]
  congr 1
  by_cases h1 : 1 < (goSplitLines response).length
  · rw [if_pos h1]
    cases hfs : firstNonBlankSuffix ((goSplitLines response).drop 1) with
    | some r =>
      rw [stripLeadingBlanks, hfs, Option.getD_some,
        firstNonBlankSuffix_some ((goSplitLines response).drop 1) r hfs]
    | none =>
      rw [stripLeadingBlanks, hfs, Option.getD_none]
      have hall := firstNonBlankSuffix_none ((goSplitLines response).drop 1) hfs
      have hnil : ((goSplitLines response).drop 1).dropWhile (fun l => goTrim l == "") = [] :=
        List.dropWhile_eq_nil_iff.mpr (fun x hx => beq_iff_eq.mpr (hall x hx))
      rw [hnil]
      have hblank : goTrim (goJoin "\n" ((goSplitLines response).drop 1)) = "" :=
        (goTrim_eq_empty_iff _).mpr (goJoin_blank _ hall)
      rw [hblank]
      rfl
  · rw [if_neg h1]
    have hdrop : (goSplitLines response).drop 1 = [] :=
      List.drop_eq_nil_of_le (Nat.not_lt.mp h1)
    rw [hdrop]
    rfl

lemma fieldsAux_mem_ne_empty : ∀ (cs acc : List Char) (f : String),
    f ∈ fieldsAux cs acc → f ≠ "" := by
  intro cs
  induction cs with
  | nil =>
    intro acc f hf
    rw [fieldsAux] at hf
    by_cases h : acc = []
    · rw [if_pos h] at hf; simp at hf
    · rw [if_neg h] at hf
      have hfeq : f = ⟨acc.reverse⟩ := by simpa using hf
      subst hfeq
      intro hc
      exact h (List.reverse_eq_nil_iff.mp (congrArg String.data hc))
  | cons c cs ih =>
    intro acc f hf
    rw [fieldsAux] at hf
    by_cases hw : c.isWhitespace = true
    · rw [if_pos hw] at hf
      by_cases h : acc = []
      · rw [if_pos h] at hf; exact ih [] f hf
      · rw [if_neg h] at hf
        rcases List.mem_cons.mp hf with h1 | h1
        · subst h1
          intro hc
          exact h (List.reverse_eq_nil_iff.mp (congrArg String.data hc))
        · exact ih [] f h1
    · rw [if_neg hw] at hf
      exact ih (c :: acc) f hf

lemma goFields_ne_empty (s : String) (f : String) (hf : f ∈ goFields s) : f ≠ "" :=
  fieldsAux_mem_ne_empty s.data [] f hf

lemma parseChangeType_isSome (s : String) (h : s ≠ "") :
    (parseChangeType s).isSome = true := by
  obtain ⟨d⟩ := s
  cases d with
  | nil => exact absurd rfl h
  | cons c cs => rfl

lemma scanLoop_isSome (getDiff : String → Option (String × Nat × Nat)) :
    ∀ (lines : List String) (acc : List FileChange),
      (scanLoop getDiff lines acc).isSome = true := by
  intro lines
  induction lines with
  | nil => intro acc; rfl
  | cons line rest ih =>
    intro acc
    rw [scanLoop]
    by_cases hl : line = ""
    · rw [if_pos hl]; exact ih acc
    · rw [if_neg hl]
      dsimp only
      by_cases hp : (goFields line).length < 2
      · rw [if_pos hp]; exact ih acc
      · rw [if_neg hp]
        have hne : (goFields line).headD "" ≠ "" := by
          cases hgf : goFields line with
          | nil => rw [hgf] at hp; exact absurd (by simp) hp
          | cons a t =>
            have ha : a ∈ goFields line := by rw [hgf]; exact List.mem_cons_self a t
            simpa [hgf] using goFields_ne_empty line a ha
        have hsome := parseChangeType_isSome _ hne
        split
        · next heq => rw [heq] at hsome; simp at hsome
        · next ct heq =>
          split
          · exact ih acc
          · exact ih _

/-- C9: `parseChangeType` reads only the first character of the status code
(`R100` classifies as renamed, `MM` as modified); the `status[0]` access is
in-bounds for every status string the scanner passes to it — the scan of any
query output never hits the out-of-bounds case — while `parseChangeType` on
the empty string alone would be out of bounds (`none`). -/
theorem parseChangeType_inbounds :
    (∀ (getDiff : String → Option (String × Nat × Nat)) (output : String),
      (scanStagedParse getDiff output).isSome = true) ∧
    parseChangeType "" = none ∧
    parseChangeType "R100" = some "renamed" ∧
    parseChangeType "MM" = some "modified" := by
  refine ⟨fun getDiff output => ?_, rfl, rfl, rfl⟩
  unfold scanStagedParse
  dsimp only
  split
  · rfl
  · exact scanLoop_isSome getDiff _ []

/-- The C1 counterexample ChangeSet: two staged files with different change
kinds, so the Go `changeTypes` map has two keys. -/
def cexChanges : List FileChange :=
  [⟨"a.go", "added", "", 1, 0⟩, ⟨"b.go", "modified", "", 1, 0⟩]

/-- C1 (refuting the claim as stated): prompt construction is not
deterministic.  Both `["added", "modified"]` and `["modified", "added"]` are
valid enumeration orders of the `changeTypes` map for `cexChanges` — Go
deliberately randomizes map `range` order between calls — and the two
possible executions of `buildChangeContext` followed by `buildPrompt` on the
identical input produce different output strings. -/
theorem buildPrompt_not_deterministic :
    validTypeOrder ["added", "modified"] cexChanges ∧
    validTypeOrder ["modified", "added"] cexChanges ∧
    buildChangeContext ["added", "modified"] cexChanges ≠
      buildChangeContext ["modified", "added"] cexChanges ∧
    buildPrompt (buildChangeContext ["added", "modified"] cexChanges) cexChanges ≠
      buildPrompt (buildChangeContext ["modified", "added"] cexChanges) cexChanges := by
  refine ⟨by decide, by decide, ?_, ?_⟩
  · set_option maxRecDepth 10000 in decide
  · set_option maxRecDepth 40000 in decide

/-- C5: the diff-capping step of `buildPrompt` truncates a diff longer than
the 2000-character cap to exactly the cap length followed by the fixed
truncation marker, passes a diff not exceeding the cap through unmodified,
and the (possibly truncated) diff is embedded verbatim in the per-file detail
block of the prompt. -/
theorem buildPrompt_diff_truncation :
    ∀ (diff : String) (c : FileChange),
      (2000 < diff.data.length →
        truncateDiff diff = ⟨diff.data.take 2000⟩ ++ truncMarker ∧
          (diff.data.take 2000).length = 2000) ∧
      (diff.data.length ≤ 2000 → truncateDiff diff = diff) ∧
      (c.Diff ≠ "" → (truncateDiff c.Diff).data <:+: (fileDetail c).data) := by
  intro diff c
  refine ⟨fun h => ⟨?_, ?_⟩, fun h => ?_, fun h => ?_⟩
  · unfold truncateDiff; rw [if_pos h]
  · rw [List.length_take]; omega
  · unfold truncateDiff; rw [if_neg (by omega)]
  · unfold fileDetail
    rw [if_pos h]
    refine ⟨("=== DETAILED CHANGES IN " ++ c.FilePath ++ " ===\n" ++ "Change Type: " ++
      c.ChangeType ++ "\n" ++ "Lines Added: " ++ toString c.LinesAdded ++
      ", Lines Removed: " ++ toString c.LinesRemoved ++ "\n\n" ++ "DIFF CONTENT:\n").data,
      ("\n" ++ eqBar ++ "\n\n").data, ?_⟩
    simp [String.data_append, List.append_assoc]

/-- A 2001-character diff, exceeding the 2000-character cap by one. -/
def bigDiff : String := ⟨List.replicate 2001 'a'⟩

/-- Witness for C5: the truncation theorem applied at a 2001-character diff, a
short diff, and a file with a non-empty diff. -/
theorem buildPrompt_diff_truncation_witness :
    truncateDiff bigDiff = ⟨bigDiff.data.take 2000⟩ ++ truncMarker ∧
    truncateDiff "short" = "short" ∧
    (truncateDiff (FileChange.mk "a.go" "modified" "d" 5 2).Diff).data <:+:
      (fileDetail (FileChange.mk "a.go" "modified" "d" 5 2)).data := by
  have hbig : 2000 < bigDiff.data.length := by
    show 2000 < (List.replicate 2001 'a').length
    rw [List.length_replicate]
    omega
  exact ⟨((buildPrompt_diff_truncation bigDiff (FileChange.mk "a.go" "modified" "d" 5 2)).1
      hbig).1,
    (buildPrompt_diff_truncation "short" (FileChange.mk "a.go" "modified" "d" 5 2)).2.1
      (by decide),
    (buildPrompt_diff_truncation "x" (FileChange.mk "a.go" "modified" "d" 5 2)).2.2
      (by decide)⟩

lemma foldl_append_init (a : String) (l : List String) :
    l.foldl (· ++ ·) a = a ++ l.foldl (· ++ ·) "" := by
  induction l generalizing a with
  | nil => simp [String.append_empty]
  | cons s t ih =>
    rw [List.foldl_cons, List.foldl_cons, ih (a ++ s), ih ("" ++ s), String.empty_append,
      String.append_assoc]

lemma join_cons (s : String) (l : List String) :
    String.join (s :: l) = s ++ String.join l := by
  show (s :: l).foldl (· ++ ·) "" = s ++ l.foldl (· ++ ·) ""
  rw [List.foldl_cons, String.empty_append, foldl_append_init]

lemma fileSection_eq (total : Nat) : ∀ (l : List FileChange) (i : Nat), i ≤ 5 →
    fileSection total i l =
      String.join ((l.take (5 - i)).map fileDetail) ++
        (if 5 < i + l.length then "... and " ++ toString (total - 5) ++ " more files\n\n"
         else "") := by
  intro l
  induction l with
  | nil =>
    intro i hi
    simp only [List.take_nil, List.map_nil, List.length_nil]
    rw [if_neg (by omega)]
    rfl
  | cons c rest ih =>
    intro i hi
    rw [fileSection]
    by_cases h5 : 5 ≤ i
    · rw [if_pos h5]
      have hi5 : i = 5 := le_antisymm hi h5
      subst hi5
      rw [show (5 : Nat) - 5 = 0 from rfl]
      simp only [List.take_zero, List.map_nil]
      rw [if_pos (by simp only [List.length_cons]; omega)]
      show _ = String.join [] ++ _
      rw [show String.join [] = "" from rfl, String.empty_append]
    · rw [if_neg h5]
      have hlt : i < 5 := Nat.not_le.mp h5
      rw [ih (i + 1) (by omega)]
      have htake : (c :: rest).take (5 - i) = c :: rest.take (5 - (i + 1)) := by
        rw [show (5 : Nat) - i = (5 - (i + 1)) + 1 by omega, List.take_succ_cons]
      rw [htake, List.map_cons, join_cons]
      have hc : i + (c :: rest).length = (i + 1) + rest.length := by
        simp only [List.length_cons]; omega
      rw [hc, ← String.append_assoc]

/-- C6: the `buildPrompt` loop details at most the first 5 files of the
ChangeSet in order; when there are more than 5, the remaining files are not
detailed and are summarized by a single `... and N more files` line with
`N` the total file count minus 5. -/
theorem buildPrompt_file_cap :
    ∀ changes : List FileChange,
      (changes.length ≤ 5 →
        fileSection changes.length 0 changes = String.join (changes.map fileDetail)) ∧
      (5 < changes.length →
        fileSection changes.length 0 changes =
          String.join ((changes.take 5).map fileDetail) ++
            ("... and " ++ toString (changes.length - 5) ++ " more files\n\n")) := by
  intro changes
  constructor
  · intro h
    rw [fileSection_eq changes.length changes 0 (by omega)]
    rw [if_neg (by omega)]
    rw [show (5 : Nat) - 0 = 5 from rfl, List.take_of_length_le h, String.append_empty]
  · intro h
    rw [fileSection_eq changes.length changes 0 (by omega)]
    rw [if_pos (by omega)]

/-- A six-file ChangeSet, one past the per-file detail cap. -/
def sixChanges : List FileChange :=
  List.replicate 6 ⟨"a.go", "modified", "d", 1, 0⟩

/-- Witness for C6: the cap theorem applied at a six-file ChangeSet and at the
two-file `demoChanges`. -/
theorem buildPrompt_file_cap_witness :
    fileSection sixChanges.length 0 sixChanges =
      String.join ((sixChanges.take 5).map fileDetail) ++
        ("... and " ++ toString (sixChanges.length - 5) ++ " more files\n\n") ∧
    fileSection demoChanges.length 0 demoChanges =
      String.join (demoChanges.map fileDetail) :=
  ⟨(buildPrompt_file_cap sixChanges).2 (by decide),
    (buildPrompt_file_cap demoChanges).1 (by decide)⟩

end GitCommenter
